import Mathlib

/-!
Verification development for the Pythia cookbook-gallery transform
(`pythia-gallery.py`).  The Python source is shallowly embedded: pure
computations become Lean functions, the per-resource `try/except` blocks
become `Option`-valued functions (`none` = the exception was raised), and
the uncaught exceptions that abort the whole batch make `render_cookbooks`
itself `Option`-valued.  Python dicts used only through key lookup are
embedded as association lists with first-match lookup, and Python `set`s
(iterated only through `sorted`) as `Finset String`.
-/

/-- A style dictionary.  The source only ever builds style dicts from the
fixed field names below, so a record of optional fields is a faithful
embedding of those dict literals. -/
structure Style where
  background : Option String := none
  display : Option String := none
  borderRadius : Option Nat := none
  color : Option String := none
  padding : Option Nat := none
  margin : Option Nat := none
  fontWeight : Option String := none
deriving DecidableEq, Repr

/-- The `LAYOUT_STYLE` dict from the source. -/
def LAYOUT_STYLE : Style :=
  { display := some "inline-block", borderRadius := some 8,
    color := some "white", padding := some 5, margin := some 5 }

/-- The `DEFAULT_STYLE` dict, a background colour over the layout style. -/
def DEFAULT_STYLE : Style := { LAYOUT_STYLE with background := some "#4E66F6" }

/-- The `styles` dict mapping the two known categories to their styles. -/
def styles : List (String × Style) :=
  [("domains", { LAYOUT_STYLE with background := some "#7A77B4" }),
   ("packages", { LAYOUT_STYLE with background := some "#B83BC0" })]

/-- The lookup `styles.get(category, DEFAULT_STYLE)`. -/
def stylesGet (category : String) : Style :=
  (styles.lookup category).getD DEFAULT_STYLE

/-- The `style={"fontWeight": "bold"}` literal used on group labels. -/
def boldStyle : Style := { fontWeight := some "bold" }

/-- One value of the tags mapping: either a proper sequence of tag strings
or a malformed (non-iterable, falsy) value such as YAML `null`, which makes
iteration and `set.update` raise. -/
inductive TagSeq where
  | strs (xs : List String)
  | bad
deriving Repr

/-- The `tags` field of a gallery document: a mapping from category name to
a tag sequence, or a malformed non-mapping value (e.g. `null`), on which
`.items()` and `.get` raise. -/
inductive TagsV where
  | map (m : List (String × TagSeq))
  | bad
deriving Repr

/-- The record built by a successful `fetch_cookbook_data`. -/
structure CData where
  title : String
  book_url : String
  image_url : String
  tags : TagsV
deriving Repr

/-- The `myst.yml` document as consumed: only `config["project"]["title"]`
is read; `none` models the field being absent (a `KeyError`). -/
structure MystConfig where
  title : Option String
deriving Repr

/-- The `_gallery_info.yml` document as consumed: `thumbnail` is required
(the subscript access of `thumbnail` raises when absent), `tags` is optional
(`gallery_data.get("tags", {})`). -/
structure GalleryInfo where
  thumbnail : Option String
  tags : Option TagsV
deriving Repr

/-- The two remote documents for one resource; `none` models a network or
decode failure while retrieving that document. -/
structure Docs where
  config : Option MystConfig
  gallery : Option GalleryInfo
deriving Repr

/-- The raw-content base URL derived from the resource name. -/
def raw_base_url (name : String) : String :=
  "https://raw.githubusercontent.com/ProjectPythia-MystMD/" ++ name ++ "/main"

/-- The function `fetch_cookbook_data`: builds the metadata record from the two remote
documents, or returns `none` when any step of the guarded block raises
(network failure, missing `title`, missing `thumbnail`). -/
def fetch_cookbook_data (name : String) (docs : Docs) : Option CData :=
  match docs.config with
  | none => none
  | some config =>
    match config.title with
    | none => none
    | some title =>
      match docs.gallery with
      | none => none
      | some gallery_data =>
        match gallery_data.thumbnail with
        | none => none
        | some thumbnail =>
          some { title := title,
                 book_url := "https://projectpythia-mystmd.github.io/" ++ name,
                 image_url := raw_base_url name ++ "/" ++ thumbnail,
                 tags := gallery_data.tags.getD (.map []) }

/-- Modelled from the spec: the generic tree-node constructors (`text`,
`image`, `span`, `div`, the raw checkbox element, `card`, `cardTitle`,
`grid`) are external collaborators from the `unist` helper module, which is
not part of the core; they are embedded as plain constructors of a render
tree.  `grid` children are optional because the Python call site can pass a
list containing `None`. -/
inductive Node where
  | text (value : String)
  | image (url : String)
  | span (children : List Node) (style : Style)
  | div (children : List Node) (style : Option Style) (cls : Option (List String))
  | checkbox (rel : String)
  | card (url : String) (cls : List String) (children : List Node)
  | cardTitle (children : List Node)
  | grid (cols : List Nat) (children : List (Option Node))
deriving Repr

/-- Iterating one tags value: `some` of the item list for a proper
sequence, `none` when iterating it would raise. -/
def seqItems : TagSeq → Option (List String)
  | .strs xs => some xs
  | .bad => none

/-- The card class-list comprehension
`[item for _, items in data["tags"].items() for item in items]`:
flattens every category's items in mapping order; `none` when `.items()`
or iterating some value raises. -/
def flatTags : TagsV → Option (List String)
  | .bad => none
  | .map m => (m.mapM fun p => seqItems p.2).map List.flatten

/-- The styled-label comprehension of the card body: one span per
`(category, item)` pair with a non-empty (truthy) item sequence, styled by
`styles.get(category, DEFAULT_STYLE)`. -/
def tagSpans : TagsV → List Node
  | .bad => []
  | .map m =>
    m.flatMap fun p =>
      match p.2 with
      | .strs xs =>
        if xs.isEmpty then [] else xs.map fun item => .span [.text item] (stylesGet p.1)
      | .bad => []

/-- The function `render_cookbook`: builds the card node from a fetched record, or
returns `none` when the guarded block raises (malformed tags). -/
def render_cookbook (name : String) (data : CData) : Option Node :=
  match flatTags data.tags with
  | none => none
  | some allTags =>
    some (.card data.book_url ("tagged-card" :: allTags)
      [.cardTitle [.text data.title],
       .div [.image data.image_url, .div (tagSpans data.tags) none none] none none])

/-- The lookup `data["tags"].get(category, [])` followed by `set.update`: `some` of
the added items (`[]` when the category is absent), `none` when `.get`
raises (tags not a mapping) or `set.update` raises (value not iterable). -/
def tagsGet : TagsV → String → Option (List String)
  | .bad, _ => none
  | .map m, category =>
    match m.lookup category with
    | none => some []
    | some (.strs xs) => some xs
    | some .bad => none

/-- One record's contribution to the two tag sets, i.e. the body of
`for category in tag_lists.keys(): tag_lists[category].update(...)`:
`none` when that loop raises (aborting the whole batch). -/
def aggStep (acc : Finset String × Finset String) (t : TagsV) :
    Option (Finset String × Finset String) :=
  match tagsGet t "domains", tagsGet t "packages" with
  | some xs, some ys => some (acc.1 ∪ xs.toFinset, acc.2 ∪ ys.toFinset)
  | _, _ => none

/-- The assignment of `v` to key `name` on the association-list embedding of the
dict: the new binding shadows any earlier one for lookups. -/
def dict_set (k : String) (v : Option Node) (d : List (String × Option Node)) :
    List (String × Option Node) :=
  (k, v) :: d

/-- The tests `name in cookbook_data` / `cookbook_data[name]` combined: first-match
lookup (the most recent binding, matching dict overwrite semantics). -/
def dlookup (k : String) : List (String × Option Node) → Option (Option Node)
  | [] => none
  | (k', v) :: rest => if k' = k then some v else dlookup k rest

/-- The local state of the main loop of `render_cookbooks`: the
`cookbook_data` dict, the two accumulating tag sets, and the loop variable
`category`, which in Python leaks out of the inner `for` loop into function
scope (`none` = never assigned, reading it raises `NameError`). -/
structure LoopState where
  cookbook_data : List (String × Option Node)
  domains : Finset String
  packages : Finset String
  categoryVar : Option String

def initState : LoopState := ⟨[], ∅, ∅, none⟩

/-- The loop `for name, data in zip(body, cookbook_entries): ...` of
`render_cookbooks`: skips falsy entries, stores the (possibly `None`)
render result under `name`, and updates the tag sets; `none` when the
uncaught tag-aggregation exception aborts the function.  After any
successful iteration the leaked `category` variable equals `"packages"`,
the last key of `tag_lists`. -/
def gallery_loop : List (String × Option CData) → LoopState → Option LoopState
  | [], s => some s
  | (_, none) :: rest, s => gallery_loop rest s
  | (name, some data) :: rest, s =>
    match aggStep (s.domains, s.packages) data.tags with
    | none => none
    | some (ds, ps) =>
      gallery_loop rest
        { cookbook_data := dict_set name (render_cookbook name data) s.cookbook_data,
          domains := ds, packages := ps, categoryVar := some "packages" }

/-- One checkbox row of a filter group: the row div holds the checkbox
element carrying the tag as its `rel` attribute and the ` {tag}` text. -/
def mkRow (tag : String) (st : Style) : Node :=
  .div [.checkbox tag, .text (" " ++ tag)] (some st) none

/-- The row comprehension of one control group: one row per tag of the
sorted set, each styled by `styles.get(category, DEFAULT_STYLE)` where
`category` is the leaked loop variable; `none` models the `NameError`
raised when that variable was never assigned and a row body is evaluated. -/
def controlRows (tags : Finset String) (categoryVar : Option String) :
    Option (List Node) :=
  (tags.sort (· ≤ ·)).mapM fun tag =>
    categoryVar.map fun category => mkRow tag (stylesGet category)

/-- One filter-control group (`domains_controls` / `packages_controls`):
the bold label followed by the checkbox rows, classed with the group
name. -/
def groupNode (label : String) (cls : String) (tags : Finset String)
    (categoryVar : Option String) : Option Node :=
  (controlRows tags categoryVar).map fun rows =>
    .div (.span [.text label] boldStyle :: rows) none (some [cls])

/-- The function `render_cookbooks` (minus the file read and the thread pool, whose
result arrives as `entries`): returns the `filter-controls` container and
`cookbook_nodes = [cookbook_data[name] for name in body if name in cookbook_data]`,
or `none` when an uncaught exception aborts the batch. -/
def render_cookbooks (body : List String) (entries : List (Option CData)) :
    Option (Node × List (Option Node)) :=
  (gallery_loop (body.zip entries) initState).bind fun s =>
  (groupNode "Filter by Domain:" "domains" s.domains s.categoryVar).bind
    fun domains_controls =>
  (groupNode "Filter by Package:" "packages" s.packages s.categoryVar).bind
    fun packages_controls =>
  some (.div [domains_controls, packages_controls] none (some ["filter-controls"]),
        body.filterMap fun name => dlookup name s.cookbook_data)

/-- The worker-pool model for `pool.map(fetch_cookbook_data, body)`: tasks
are identified by input index, `sched` is the order in which they complete,
and each completing task writes its result into its own pre-sized slot.
The read-out after the join is the slot list in input-index order. -/
def runPool {α β : Type} (f : α → β) (xs : List α) (sched : List Nat) :
    List (Option β) :=
  sched.foldl (fun slots i => slots.set i ((xs.get? i).map f)) (List.replicate xs.length none)

/-- The entries `list(pool.map(fetch_cookbook_data, body))` given
the fetched documents `net` and a completion schedule.  An unfilled slot
(impossible once every task completed) reads as a failed fetch. -/
def fetchAll (net : String → Docs) (body : List String) (sched : List Nat) :
    List (Option CData) :=
  (runPool (fun name => fetch_cookbook_data name (net name)) body sched).map Option.join

/-- The externally supplied document tree: generic typed nodes, plus
embedded render nodes once the gallery fragment is installed. -/
inductive Doc where
  | node (ty : String) (children : List Doc)
  | embed (n : Node)

/-- The placeholder rewrite of `run_transform`: every node of type
`pythia-cookbooks` is cleared, retyped to `container`, and given the
controls node and the grid node as children. -/
def replace_gallery (controls gridNode : Node) : Doc → Doc
  | .node ty children =>
    if ty = "pythia-cookbooks" then
      .node "container" [.embed controls, .embed gridNode]
    else
      .node ty (children.attach.map fun c => replace_gallery controls gridNode c.1)
  | .embed n => .embed n
decreasing_by
  simp only [Doc.node.sizeOf_spec]
  have := List.sizeOf_lt_of_mem c.2
  omega

/-- The function `run_transform` given the already-fetched entries: render the gallery,
wrap the cards in `grid([1, 1, 2, 3], ...)`, and rewrite every placeholder;
`none` when `render_cookbooks` aborts (the exception propagates). -/
def run_transform (body : List String) (entries : List (Option CData)) (doc : Doc) :
    Option Doc :=
  (render_cookbooks body entries).map fun r =>
    replace_gallery r.1 (.grid [1, 1, 2, 3] r.2) doc

/-- The full transform run: fetch all entries through the pool under
completion schedule `sched`, then transform the document tree. -/
def pipeline (net : String → Docs) (body : List String) (sched : List Nat)
    (doc : Doc) : Option Doc :=
  run_transform body (fetchAll net body sched) doc

/-- The class list of a card node (empty for non-cards). -/
def cardCls : Node → List String
  | .card _ cls _ => cls
  | _ => []

/-- The groups of the filter-controls container. -/
def controlGroups : Node → List Node
  | .div gs _ _ => gs
  | _ => []

/-- The tag carried by one checkbox row (the `rel` attribute). -/
def rowTag : Node → Option String
  | .div (.checkbox rel :: _) _ _ => some rel
  | _ => none

/-- The style carried by one checkbox row. -/
def rowStyle : Node → Option Style
  | .div _ st _ => st
  | _ => none

/-- The tags of the rows of one control group (everything after the
label). -/
def groupTags : Node → List String
  | .div (_ :: rows) _ _ => rows.filterMap rowTag
  | _ => []

/-- The row styles of one control group. -/
def groupRowStyles : Node → List (Option Style)
  | .div (_ :: rows) _ _ => rows.map rowStyle
  | _ => []

/-- A record whose card rendering raises: its `tags` mapping carries a
non-iterable value (the class-list comprehension iterates it), but neither
of the two known categories is affected, so tag aggregation succeeds. -/
def exRenderFail : CData :=
  { title := "t", book_url := "b", image_url := "i", tags := .map [("other", .bad)] }

/-- A record fetching successfully with a single domains tag. -/
def exDomX : CData :=
  { title := "t", book_url := "b", image_url := "i", tags := .map [("domains", .strs ["x"])] }

/-- A record with no tags at all. -/
def exNoTags : CData :=
  { title := "t", book_url := "b", image_url := "i", tags := .map [] }

/-- A record mixing a malformed tags value in an unknown category (which
makes the card render raise) with a proper domains tag (which the
aggregation loop still reads). -/
def exMixed : CData :=
  { title := "t", book_url := "b", image_url := "i",
    tags := .map [("other", .bad), ("domains", .strs ["x"])] }

/-- A concrete network: resource `"a"` has complete documents, every other
resource fails with a network error on `myst.yml`. -/
def exNet (name : String) : Docs :=
  if name = "a" then
    { config := some { title := some "Title A" },
      gallery := some { thumbnail := some "thumb.png", tags := none } }
  else
    { config := none, gallery := none }

/-- A concrete input document tree holding one placeholder node. -/
def exDoc : Doc :=
  .node "root" [.node "pythia-cookbooks" [], .node "paragraph" []]

/-- The effect of one loop iteration on the pair of tag sets alone:
falsy entries are skipped, successful entries pass through `aggStep`, and
an already-raised exception (`none`) stays raised. -/
def pstep (os : Option (Finset String × Finset String))
    (p : String × Option CData) : Option (Finset String × Finset String) :=
  match p.2 with
  | none => os
  | some d => os.bind fun acc => aggStep acc d.tags

/-- Mapping an always-succeeding function over a list in `Option`. -/
theorem mapM_option_pure {α β : Type} (g : α → β) (l : List α) :
    (l.mapM fun a => some (g a)) = some (l.map g) := by
  induction l with
  | nil => rfl
  | cons a l ih => rw [List.mapM_cons, ih]; rfl

/-- The accumulator form of `mapM_option_pure`. -/
theorem mapM_loop_option_pure {α β : Type} (g : α → β) :
    ∀ (l : List α) (acc : List β),
      List.mapM.loop (fun a => some (g a)) l acc = some (acc.reverse ++ l.map g) := by
  intro l
  induction l with
  | nil => intro acc; simp [List.mapM.loop]
  | cons a l ih => intro acc; simp [List.mapM.loop, ih]

/-- C1: the claim fails on the code.  When `render_cookbook` raises, the
`except` branch returns `None`, which is stored under `name` in
`cookbook_data`; the guard `if name in cookbook_data` tests key membership,
not the stored value, so the final card list passed to the grid contains a
`None` slot for that resource instead of excluding it. -/
theorem render_failure_leaves_null_slot :
    render_cookbook "a" exRenderFail = none ∧
    (render_cookbooks ["a"] [some exRenderFail]).map Prod.snd = some [none] := by
  refine ⟨rfl, ?_⟩
  simp [render_cookbooks, gallery_loop, aggStep, tagsGet, exRenderFail, initState,
    groupNode, controlRows, dict_set, dlookup, render_cookbook, flatTags, seqItems,
    List.lookup, List.mapM.loop, Finset.sort_empty]

/-- C2: the claim fails on the code.  The style expression of each filter
row reads the variable `category`, which is not bound by the row
comprehension: it is the leaked variable of the aggregation loop
`for category in tag_lists.keys()`, equal to `"packages"` once any record
succeeded.  The row of the domains group therefore carries the packages
style, not the domains style. -/
theorem domains_row_carries_packages_style :
    ((render_cookbooks ["a"] [some exDomX]).map fun r =>
        (controlGroups r.1).map groupRowStyles)
      = some [[some (stylesGet "packages")], []] ∧
    stylesGet "packages" ≠ stylesGet "domains" := by
  constructor
  · simp [render_cookbooks, gallery_loop, aggStep, tagsGet, exDomX, initState,
      groupNode, controlRows, dict_set, render_cookbook, flatTags, seqItems,
      List.lookup, List.mapM.loop, Finset.sort_empty, Finset.sort_singleton,
      controlGroups, groupRowStyles, mkRow, rowStyle]
  · decide

/-- The slot list built by the pool keeps one slot per input. -/
theorem foldl_set_length {β : Type} (w : Nat → Option β) :
    ∀ (sched : List Nat) (init : List (Option β)),
      (sched.foldl (fun slots i => slots.set i (w i)) init).length = init.length := by
  intro sched
  induction sched with
  | nil => intro init; rfl
  | cons i tl ih => intro init; rw [List.foldl_cons, ih, List.length_set]

/-- Slot `j` after processing a completion schedule: written with task
the result of task `j` whenever task `j` completed, untouched otherwise —
regardless of where in the schedule the write happened. -/
theorem foldl_set_getElem? {β : Type} (w : Nat → Option β) :
    ∀ (sched : List Nat) (init : List (Option β)) (j : Nat),
      (sched.foldl (fun slots i => slots.set i (w i)) init)[j]?
        = if j ∈ sched ∧ j < init.length then some (w j) else init[j]? := by
  intro sched
  induction sched with
  | nil => intro init j; simp
  | cons i tl ih =>
    intro init j
    rw [List.foldl_cons, ih, List.length_set]
    by_cases hlt : j < init.length
    · by_cases hmem : j ∈ tl
      · simp [hmem, hlt]
      · by_cases hji : i = j
        · subst hji
          simp [List.getElem?_set, hmem, hlt]
        · have hij : ¬j = i := fun h => hji h.symm
          simp [List.getElem?_set, hmem, hlt, hji, hij]
    · have h1 : (init.set i (w i))[j]? = none :=
        List.getElem?_eq_none (by simpa using not_lt.mp hlt)
      have h2 : init[j]? = none := List.getElem?_eq_none (not_lt.mp hlt)
      simp [hlt, h1, h2]

/-- Once every task index has completed (in any order), the pool's
read-out is the results of `f` in input order, one filled slot per
input. -/
theorem runPool_eq {α β : Type} (f : α → β) (xs : List α) (sched : List Nat)
    (h : sched.Perm (List.range xs.length)) :
    runPool f xs sched = xs.map fun a => some (f a) := by
  apply List.ext_getElem?
  intro j
  unfold runPool
  rw [foldl_set_getElem?, List.length_replicate]
  have hmem : j ∈ sched ↔ j < xs.length := by
    rw [h.mem_iff, List.mem_range]
  by_cases hj : j < xs.length
  · rw [if_pos ⟨hmem.mpr hj, hj⟩, List.getElem?_map, List.getElem?_eq_getElem hj,
      List.get?_eq_getElem?, List.getElem?_eq_getElem hj]
    rfl
  · rw [if_neg (fun hc => hj hc.2), List.getElem?_map,
      List.getElem?_eq_none (not_lt.mp hj), List.getElem?_replicate]
    simp [hj]

/-- C3: the fetch orchestration returns one slot per input identifier, in
input order, holding the fetched record where the fetch succeeded and
`None` where it failed, for every completion order of the parallel
fetches. -/
theorem fetchAll_aligned_to_input_order (net : String → Docs) (body : List String)
    (sched : List Nat) (h : sched.Perm (List.range body.length)) :
    fetchAll net body sched = (body.map fun name => fetch_cookbook_data name (net name)) ∧
    (fetchAll net body sched).length = body.length := by
  have hr : fetchAll net body sched
      = body.map fun name => fetch_cookbook_data name (net name) := by
    unfold fetchAll
    rw [runPool_eq _ _ _ h, List.map_map]
    simp [Function.comp]
  exact ⟨hr, by rw [hr, List.length_map]⟩

/-- A concrete two-resource run of `fetchAll` whose second fetch fails,
completed in reverse order. -/
theorem fetchAll_aligned_witness :
    ([1, 0].Perm (List.range (["a", "b"] : List String).length)) ∧
    (fetchAll exNet ["a", "b"] [1, 0]
        = (["a", "b"].map fun name => fetch_cookbook_data name (exNet name)) ∧
      (fetchAll exNet ["a", "b"] [1, 0]).length = (["a", "b"] : List String).length) :=
  ⟨by decide, fetchAll_aligned_to_input_order exNet ["a", "b"] [1, 0] (by decide)⟩

/-- An exception already raised in the tag-aggregation loop aborts the
rest of the batch. -/
theorem foldl_pstep_none :
    ∀ l : List (String × Option CData), l.foldl pstep none = none := by
  intro l
  induction l with
  | nil => rfl
  | cons p rest ih =>
    have hstep : pstep none p = none := by
      rcases p with ⟨n, _ | d⟩ <;> simp [pstep]
    rw [List.foldl_cons, hstep, ih]

/-- Two adjacent loop iterations commute on the tag sets. -/
theorem pstep_comm (os : Option (Finset String × Finset String))
    (p q : String × Option CData) :
    pstep (pstep os p) q = pstep (pstep os q) p := by
  rcases p with ⟨pn, _ | pd⟩
  · simp [pstep]
  · rcases q with ⟨qn, _ | qd⟩
    · simp [pstep]
    · rcases os with _ | acc
      · simp [pstep]
      · rcases hp1 : tagsGet pd.tags "domains" with _ | xs₁ <;>
          rcases hp2 : tagsGet pd.tags "packages" with _ | ys₁ <;>
          rcases hq1 : tagsGet qd.tags "domains" with _ | xs₂ <;>
          rcases hq2 : tagsGet qd.tags "packages" with _ | ys₂ <;>
          simp [pstep, aggStep, hp1, hp2, hq1, hq2, Finset.union_assoc,
            Finset.union_comm, Finset.union_left_comm]

/-- Repeating a loop iteration does not change the tag sets. -/
theorem pstep_self (os : Option (Finset String × Finset String))
    (p : String × Option CData) :
    pstep (pstep os p) p = pstep os p := by
  rcases p with ⟨pn, _ | pd⟩
  · simp [pstep]
  · rcases os with _ | acc
    · simp [pstep]
    · rcases hp1 : tagsGet pd.tags "domains" with _ | xs <;>
        rcases hp2 : tagsGet pd.tags "packages" with _ | ys <;>
        simp [pstep, aggStep, hp1, hp2, Finset.union_assoc]

/-- Folding `pstep` is invariant under permutation of the entries. -/
theorem foldl_pstep_perm {l₁ l₂ : List (String × Option CData)} (h : l₁.Perm l₂) :
    ∀ os, l₁.foldl pstep os = l₂.foldl pstep os := by
  induction h with
  | nil => intro os; rfl
  | cons x _ ih => intro os; simp only [List.foldl_cons]; exact ih _
  | swap x y l => intro os; simp only [List.foldl_cons]; rw [pstep_comm]
  | trans _ _ ih₁ ih₂ => intro os; rw [ih₁ os, ih₂ os]

/-- The tag sets of the main loop are the `pstep` fold of its input
pairs. -/
theorem gallery_loop_tagSets :
    ∀ (pairs : List (String × Option CData)) (s : LoopState),
      (gallery_loop pairs s).map (fun s' => (s'.domains, s'.packages))
        = pairs.foldl pstep (some (s.domains, s.packages)) := by
  intro pairs
  induction pairs with
  | nil => intro s; rfl
  | cons p rest ih =>
    intro s
    rcases p with ⟨name, _ | d⟩
    · simpa [gallery_loop, pstep] using ih s
    · simp only [gallery_loop, List.foldl_cons]
      rcases hagg : aggStep (s.domains, s.packages) d.tags with _ | ⟨ds, ps⟩
      · simp [pstep, hagg, foldl_pstep_none]
      · have h := ih { cookbook_data := dict_set name (render_cookbook name d) s.cookbook_data,
                       domains := ds, packages := ps, categoryVar := some "packages" }
        simpa [pstep, hagg] using h

/-- C5: tag aggregation is order-independent and idempotent — permuting
the per-resource entries, or aggregating an entry twice, yields the same
final pair of tag sets (the TagIndex). -/
theorem tag_aggregation_commutative_idempotent
    (pairs₁ pairs₂ : List (String × Option CData)) (h : pairs₁.Perm pairs₂)
    (p : String × Option CData) (l : List (String × Option CData)) :
    ((gallery_loop pairs₁ initState).map fun s => (s.domains, s.packages))
      = ((gallery_loop pairs₂ initState).map fun s => (s.domains, s.packages)) ∧
    ((gallery_loop (p :: p :: l) initState).map fun s => (s.domains, s.packages))
      = ((gallery_loop (p :: l) initState).map fun s => (s.domains, s.packages)) := by
  constructor
  · rw [gallery_loop_tagSets, gallery_loop_tagSets, foldl_pstep_perm h]
  · rw [gallery_loop_tagSets, gallery_loop_tagSets]
    simp only [List.foldl_cons]
    rw [pstep_self]

/-- A concrete aggregation run: two successful records given in both
orders, and the first record aggregated twice. -/
theorem tag_aggregation_witness :
    ([("a", some exDomX), ("b", some exNoTags)].Perm
        [("b", some exNoTags), ("a", some exDomX)]) ∧
    (((gallery_loop [("a", some exDomX), ("b", some exNoTags)] initState).map
          fun s => (s.domains, s.packages))
        = ((gallery_loop [("b", some exNoTags), ("a", some exDomX)] initState).map
          fun s => (s.domains, s.packages)) ∧
      ((gallery_loop [("a", some exDomX), ("a", some exDomX), ("b", some exNoTags)]
            initState).map fun s => (s.domains, s.packages))
        = ((gallery_loop [("a", some exDomX), ("b", some exNoTags)] initState).map
          fun s => (s.domains, s.packages))) :=
  ⟨List.Perm.swap ("b", some exNoTags) ("a", some exDomX) [],
   tag_aggregation_commutative_idempotent _ _
     (List.Perm.swap ("b", some exNoTags) ("a", some exDomX) [])
     ("a", some exDomX) [("b", some exNoTags)]⟩

/-- C9: the pipeline is deterministic — two runs on the same resource
list, the same fetched documents and the same input tree produce the same
output tree, whatever completion order the pool's scheduling produces in
either run. -/
theorem pipeline_deterministic (net : String → Docs) (body : List String)
    (doc : Doc) (sched₁ sched₂ : List Nat)
    (h₁ : sched₁.Perm (List.range body.length))
    (h₂ : sched₂.Perm (List.range body.length)) :
    pipeline net body sched₁ doc = pipeline net body sched₂ doc := by
  unfold pipeline fetchAll
  rw [runPool_eq _ _ _ h₁, runPool_eq _ _ _ h₂]

/-- Two concrete runs over the same two-resource input with opposite
completion orders. -/
theorem pipeline_deterministic_witness :
    ([0, 1].Perm (List.range (["a", "b"] : List String).length)) ∧
    ([1, 0].Perm (List.range (["a", "b"] : List String).length)) ∧
    pipeline exNet ["a", "b"] [0, 1] exDoc = pipeline exNet ["a", "b"] [1, 0] exDoc :=
  ⟨by decide, by decide,
   pipeline_deterministic exNet ["a", "b"] exDoc [0, 1] [1, 0] (by decide) (by decide)⟩

/-- C7: a resource whose gallery document has no `tags` field at all still
fetches to a record with an empty tags mapping, renders to a card holding
the title and the thumbnail image with no tag label beyond the fixed
`tagged-card` marker class, and contributes nothing to either tag set. -/
theorem absent_tags_field_valid_card (name t th : String) :
    ∃ r : CData,
      fetch_cookbook_data name
          { config := some { title := some t },
            gallery := some { thumbnail := some th, tags := none } }
        = some r ∧
      r.tags = .map [] ∧
      render_cookbook name r
        = some (.card ("https://projectpythia-mystmd.github.io/" ++ name)
            ["tagged-card"]
            [.cardTitle [.text t],
             .div [.image (raw_base_url name ++ "/" ++ th), .div [] none none]
               none none]) ∧
      ∀ s : LoopState,
        (gallery_loop [(name, some r)] s).map (fun s' => (s'.domains, s'.packages))
          = some (s.domains, s.packages) := by
  refine ⟨_, rfl, rfl, rfl, ?_⟩
  intro s
  simp [gallery_loop, aggStep, tagsGet]

/-- When every tags value is a proper sequence, the class-list
comprehension succeeds and yields the per-category item lists in mapping
order. -/
theorem mapM_seqItems_strs :
    ∀ m : List (String × TagSeq), (∀ p ∈ m, ∃ xs, p.2 = TagSeq.strs xs) →
      (m.mapM fun p => seqItems p.2) = some (m.map fun p => (seqItems p.2).getD []) := by
  intro m
  induction m with
  | nil => intro _; rfl
  | cons p rest ih =>
    intro h
    obtain ⟨xs, hx⟩ := h p (List.mem_cons_self p rest)
    rw [List.mapM_cons, ih fun q hq => h q (List.mem_cons_of_mem p hq)]
    simp [hx, seqItems]

/-- C8: for every record all of whose tag sequences are proper, the card
renders and its class list is the fixed `tagged-card` marker followed by
every tag of every category, flattened in mapping order then sequence
order, duplicates kept. -/
theorem card_class_list_flattened (name : String) (d : CData)
    (m : List (String × TagSeq)) (hm : d.tags = .map m)
    (hall : ∀ p ∈ m, ∃ xs, p.2 = TagSeq.strs xs) :
    ∃ c, render_cookbook name d = some c ∧
      cardCls c = "tagged-card" :: m.flatMap fun p => (seqItems p.2).getD [] := by
  have hflat : flatTags d.tags = some (m.flatMap fun p => (seqItems p.2).getD []) := by
    rw [hm]
    show (m.mapM fun p => seqItems p.2).map List.flatten = _
    rw [mapM_seqItems_strs m hall, List.flatMap_def]
    rfl
  refine ⟨.card d.book_url ("tagged-card" :: m.flatMap fun p => (seqItems p.2).getD [])
      [.cardTitle [.text d.title],
       .div [.image d.image_url, .div (tagSpans d.tags) none none] none none],
    ?_, rfl⟩
  simp only [render_cookbook, hflat]

/-- A concrete rendered card: one domains tag, class list
`["tagged-card", "x"]`. -/
theorem card_class_list_witness :
    exDomX.tags = .map [("domains", TagSeq.strs ["x"])] ∧
    (∀ p ∈ [("domains", TagSeq.strs ["x"])], ∃ xs, p.2 = TagSeq.strs xs) ∧
    ∃ c, render_cookbook "a" exDomX = some c ∧
      cardCls c
        = "tagged-card" ::
            ([("domains", TagSeq.strs ["x"])].flatMap fun p => (seqItems p.2).getD []) :=
  ⟨rfl,
   by
     intro p hp
     rw [List.mem_singleton] at hp
     exact ⟨["x"], by rw [hp]⟩,
   card_class_list_flattened "a" exDomX [("domains", TagSeq.strs ["x"])] rfl
     (by
       intro p hp
       rw [List.mem_singleton] at hp
       exact ⟨["x"], by rw [hp]⟩)⟩

/-- The rows of any successfully rendered control group list their tags in
strictly increasing lexicographic order with no duplicates: they are the
sorted enumeration of a `Finset`. -/
theorem groupNode_tags_sorted (label cls : String) (tags : Finset String)
    (categoryVar : Option String) (g : Node)
    (h : groupNode label cls tags categoryVar = some g) :
    (groupTags g).Sorted (· < ·) ∧ (groupTags g).Nodup := by
  unfold groupNode at h
  rcases hrows : controlRows tags categoryVar with _ | rows
  · rw [hrows] at h
    cases h
  · rw [hrows] at h
    simp only [Option.map_some', Option.some_inj] at h
    rcases categoryVar with _ | cv
    · unfold controlRows at hrows
      rcases hsort : tags.sort (· ≤ ·) with _ | ⟨a, l⟩
      · rw [hsort] at hrows
        simp only [List.mapM_nil] at hrows
        cases hrows
        cases h
        constructor
        · simp [groupTags]
        · simp [groupTags]
      · rw [hsort] at hrows
        rw [List.mapM_cons] at hrows
        simp at hrows
    · unfold controlRows at hrows
      simp only [Option.map_some'] at hrows
      rw [mapM_option_pure (fun tag => mkRow tag (stylesGet cv))] at hrows
      cases hrows
      cases h
      have htags : groupTags (Node.div
          (Node.span [Node.text label] boldStyle ::
            (tags.sort (· ≤ ·)).map fun tag => mkRow tag (stylesGet cv))
          none (some [cls])) = tags.sort (· ≤ ·) := by
        simp only [groupTags]
        rw [List.filterMap_map]
        have : (rowTag ∘ fun tag => mkRow tag (stylesGet cv)) = some := by
          funext tag
          rfl
        rw [this, List.filterMap_some]
      rw [htags]
      exact ⟨Finset.sort_sorted_lt tags, Finset.sort_nodup (· ≤ ·) tags⟩

/-- C6: in every run that renders, the tag rows inside each filter-control
group are strictly lexicographically sorted with no duplicate tag, whatever
duplicates or orderings the source tag sequences had. -/
theorem control_groups_sorted_nodup (body : List String)
    (entries : List (Option CData)) (c : Node) (cards : List (Option Node))
    (h : render_cookbooks body entries = some (c, cards)) :
    ∀ g ∈ controlGroups c, (groupTags g).Sorted (· < ·) ∧ (groupTags g).Nodup := by
  unfold render_cookbooks at h
  simp only [Option.bind_eq_some, Option.some_inj, Prod.mk.injEq] at h
  obtain ⟨s, hs, dc, hdc, pc, hpc, hc, hcards⟩ := h
  intro g hg
  rw [← hc] at hg
  simp only [controlGroups, List.mem_cons, List.not_mem_nil, or_false] at hg
  rcases hg with rfl | rfl
  · exact groupNode_tags_sorted _ _ _ _ _ hdc
  · exact groupNode_tags_sorted _ _ _ _ _ hpc

/-- A concrete rendering run for the sortedness property. -/
theorem control_groups_sorted_witness :
    render_cookbooks ["a"] [some exDomX]
      = some (.div
          [.div [.span [.text "Filter by Domain:"] boldStyle,
                 mkRow "x" (stylesGet "packages")] none (some ["domains"]),
           .div [.span [.text "Filter by Package:"] boldStyle] none (some ["packages"])]
          none (some ["filter-controls"]),
        [some (.card "b" ["tagged-card", "x"]
          [.cardTitle [.text "t"],
           .div [.image "i",
                 .div [.span [.text "x"] (stylesGet "domains")] none none] none none])]) ∧
    ∀ g ∈ controlGroups (Node.div
          [.div [.span [.text "Filter by Domain:"] boldStyle,
                 mkRow "x" (stylesGet "packages")] none (some ["domains"]),
           .div [.span [.text "Filter by Package:"] boldStyle] none (some ["packages"])]
          none (some ["filter-controls"])),
      (groupTags g).Sorted (· < ·) ∧ (groupTags g).Nodup := by
  have h : render_cookbooks ["a"] [some exDomX]
      = some (.div
          [.div [.span [.text "Filter by Domain:"] boldStyle,
                 mkRow "x" (stylesGet "packages")] none (some ["domains"]),
           .div [.span [.text "Filter by Package:"] boldStyle] none (some ["packages"])]
          none (some ["filter-controls"]),
        [some (.card "b" ["tagged-card", "x"]
          [.cardTitle [.text "t"],
           .div [.image "i",
                 .div [.span [.text "x"] (stylesGet "domains")] none none] none none])]) := by
    simp [render_cookbooks, gallery_loop, aggStep, tagsGet, exDomX, initState,
      groupNode, controlRows, dict_set, dlookup, render_cookbook, flatTags, seqItems,
      tagSpans, List.lookup, List.mapM.loop, Finset.sort_empty, Finset.sort_singleton,
      mkRow, stylesGet]
  exact ⟨h, control_groups_sorted_nodup ["a"] [some exDomX] _ _ h⟩

/-- The rows generated from a list of tags expose exactly those tags. -/
theorem groupTags_mkRows (label cv : String) (l : List String)
    (cls : Option (List String)) :
    groupTags (.div (Node.span [Node.text label] boldStyle ::
        l.map fun tag => mkRow tag (stylesGet cv)) none cls) = l := by
  simp only [groupTags]
  rw [List.filterMap_map]
  have hcomp : (rowTag ∘ fun tag => mkRow tag (stylesGet cv)) = some := by
    funext t
    rfl
  rw [hcomp, List.filterMap_some]

/-- C10: a resource whose fetch succeeded but whose card rendering raised
still has its tags aggregated — the aggregation loop runs on the fetched
record regardless of the render outcome, so its tags appear in the rendered
filter controls while its card slot holds `None`. -/
theorem render_failure_still_aggregates (name : String) (d : CData)
    (xs ys : List String)
    (hrender : render_cookbook name d = none)
    (hxs : tagsGet d.tags "domains" = some xs)
    (hys : tagsGet d.tags "packages" = some ys) :
    ∃ dc pc,
      render_cookbooks [name] [some d]
        = some (.div [dc, pc] none (some ["filter-controls"]), [none]) ∧
      (∀ t ∈ xs, t ∈ groupTags dc) ∧ (∀ t ∈ ys, t ∈ groupTags pc) := by
  refine ⟨.div (Node.span [Node.text "Filter by Domain:"] boldStyle ::
        ((∅ ∪ xs.toFinset : Finset String).sort (· ≤ ·)).map fun tag =>
          mkRow tag (stylesGet "packages")) none (some ["domains"]),
    .div (Node.span [Node.text "Filter by Package:"] boldStyle ::
        ((∅ ∪ ys.toFinset : Finset String).sort (· ≤ ·)).map fun tag =>
          mkRow tag (stylesGet "packages")) none (some ["packages"]),
    ?_, ?_, ?_⟩
  · unfold render_cookbooks
    simp [gallery_loop, aggStep, hxs, hys, hrender, dict_set, dlookup, initState,
      groupNode, controlRows, mapM_loop_option_pure, Option.map_some']
  · intro t ht
    rw [groupTags_mkRows]
    rw [Finset.mem_sort]
    simp [ht]
  · intro t ht
    rw [groupTags_mkRows]
    rw [Finset.mem_sort]
    simp [ht]

/-- A concrete record whose rendering raises (a malformed tags value in an
unknown category) while both known categories aggregate fine. -/
theorem render_failure_still_aggregates_witness :
    render_cookbook "n" exMixed = none ∧
    tagsGet exMixed.tags "domains" = some ["x"] ∧
    tagsGet exMixed.tags "packages" = some [] ∧
    ∃ dc pc,
      render_cookbooks ["n"] [some exMixed]
        = some (.div [dc, pc] none (some ["filter-controls"]), [none]) ∧
      (∀ t ∈ (["x"] : List String), t ∈ groupTags dc) ∧
      (∀ t ∈ ([] : List String), t ∈ groupTags pc) :=
  ⟨rfl, rfl, rfl,
   render_failure_still_aggregates "n" exMixed ["x"] [] rfl rfl rfl⟩

/-- The main loop ignores falsy entries: running it on a pair list equals
running it on the successful pairs alone. -/
theorem gallery_loop_filter :
    ∀ (l : List (String × Option CData)) (s : LoopState),
      gallery_loop l s = gallery_loop (l.filter fun p => p.2.isSome) s := by
  intro l
  induction l with
  | nil => intro s; rfl
  | cons p rest ih =>
    intro s
    rcases p with ⟨n, _ | d⟩
    · simpa [gallery_loop, List.filter_cons] using ih s
    · simp only [gallery_loop, List.filter_cons, Option.isSome_some, if_pos]
      rcases aggStep (s.domains, s.packages) d.tags with _ | ⟨ds, ps⟩
      · rfl
      · exact ih _

/-- Splitting a pair list into its two projections and zipping them back
is the identity. -/
theorem zip_map_fst_snd' {α β : Type} :
    ∀ l : List (α × β), (l.map Prod.fst).zip (l.map Prod.snd) = l := by
  intro l
  induction l with
  | nil => rfl
  | cons p rest ih => simp [ih]

/-- A key that never appears with a successful entry is untouched by the
loop's dict writes. -/
theorem gallery_loop_lookup_unchanged :
    ∀ (l : List (String × Option CData)) (s s' : LoopState) (k : String),
      gallery_loop l s = some s' → (∀ d, (k, some d) ∉ l) →
      dlookup k s'.cookbook_data = dlookup k s.cookbook_data := by
  intro l
  induction l with
  | nil =>
    intro s s' k h _
    cases h
    rfl
  | cons p rest ih =>
    intro s s' k h hk
    rcases p with ⟨n, _ | d⟩
    · rw [gallery_loop] at h
      exact ih s s' k h fun d hd => hk d (List.mem_cons_of_mem _ hd)
    · have hnk : n ≠ k := by
        intro hnk
        exact hk d (by rw [hnk]; exact List.mem_cons_self _ _)
      rw [gallery_loop] at h
      rcases hagg : aggStep (s.domains, s.packages) d.tags with _ | ⟨ds, ps⟩
      · rw [hagg] at h
        cases h
      · rw [hagg] at h
        have hrest := ih _ s' k h fun e he => hk e (List.mem_cons_of_mem _ he)
        rw [hrest]
        simp [dict_set, dlookup, hnk]

/-- Dropping list elements whose key the lookup misses: filtering the
pair list before projecting the keys changes nothing. -/
theorem filterMap_skip_failures {l : List (String × Option CData)}
    (g : String → Option (Option Node))
    (h : ∀ p ∈ l, p.2 = none → g p.1 = none) :
    (l.map Prod.fst).filterMap g
      = ((l.filter fun p => p.2.isSome).map Prod.fst).filterMap g := by
  induction l with
  | nil => rfl
  | cons p rest ih =>
    have ihr := ih fun q hq => h q (List.mem_cons_of_mem _ hq)
    rcases p with ⟨n, _ | d⟩
    · have hg : g n = none := h (n, none) (List.mem_cons_self _ _) rfl
      simp [List.filter_cons, List.filterMap_cons, hg, ihr]
    · simp [List.filter_cons, List.filterMap_cons, ihr]

/-- With pairwise distinct keys, a key determines its entry. -/
theorem nodup_keys_value_eq {α : Type} {l : List (String × α)} {k : String}
    {a b : α} (hnd : (l.map Prod.fst).Nodup)
    (ha : (k, a) ∈ l) (hb : (k, b) ∈ l) : a = b := by
  induction l with
  | nil => cases ha
  | cons p rest ih =>
    rw [List.map_cons, List.nodup_cons] at hnd
    rcases List.mem_cons.mp ha with ha | ha
    · rcases List.mem_cons.mp hb with hb | hb
      · exact (Prod.ext_iff.mp (ha.trans hb.symm)).2
      · exfalso
        apply hnd.1
        rw [← ha]
        exact List.mem_map.mpr ⟨(k, b), hb, rfl⟩
    · rcases List.mem_cons.mp hb with hb | hb
      · exfalso
        apply hnd.1
        rw [← hb]
        exact List.mem_map.mpr ⟨(k, a), ha, rfl⟩
      · exact ih hnd.2 ha hb

/-- C4 (amended): for a duplicate-free resource list, whatever subset of
fetches fails, the card sequence equals the card sequence computed from
the successful pairs alone, in original relative order — failures are
order-preserving removals. -/
theorem cards_from_successful_subset (body : List String)
    (entries : List (Option CData)) (hnd : body.Nodup)
    (hlen : entries.length = body.length) :
    (render_cookbooks body entries).map Prod.snd
      = (render_cookbooks
          (((body.zip entries).filter fun p => p.2.isSome).map Prod.fst)
          (((body.zip entries).filter fun p => p.2.isSome).map Prod.snd)).map
        Prod.snd := by
  have hbody : (body.zip entries).map Prod.fst = body :=
    List.map_fst_zip body entries (le_of_eq hlen.symm)
  unfold render_cookbooks
  rw [zip_map_fst_snd', ← gallery_loop_filter]
  cases hloop : gallery_loop (body.zip entries) initState with
  | none => rfl
  | some s =>
    simp only [Option.some_bind]
    have hcards : body.filterMap (fun n => dlookup n s.cookbook_data)
        = (((body.zip entries).filter fun p => p.2.isSome).map Prod.fst).filterMap
            (fun n => dlookup n s.cookbook_data) := by
      conv_lhs => rw [← hbody]
      apply filterMap_skip_failures
      rintro ⟨n, e⟩ hp hpnone
      simp only at hpnone
      rw [hpnone] at hp
      have hnd' : ((body.zip entries).map Prod.fst).Nodup := by
        rw [hbody]
        exact hnd
      have hnotin : ∀ d, (n, some d) ∉ body.zip entries := by
        intro d hd
        have heq : (none : Option CData) = some d :=
          nodup_keys_value_eq hnd' hp hd
        cases heq
      have hun := gallery_loop_lookup_unchanged (body.zip entries) initState s n
        hloop hnotin
      rw [hun]
      rfl
    rw [hcards]

/-- C4 as stated fails on duplicate identifiers: with input
`["a", "a"]` where only the first fetch succeeds, the dict keyed by name
makes both occurrences render the successful card, so the output has two
cards while the successful subset alone yields one. -/
theorem duplicate_failure_not_removed :
    ¬ ((render_cookbooks ["a", "a"] [some exDomX, none]).map Prod.snd
        = (render_cookbooks
            (((["a", "a"].zip ([some exDomX, none] : List (Option CData))).filter
                fun p => p.2.isSome).map Prod.fst)
            (((["a", "a"].zip ([some exDomX, none] : List (Option CData))).filter
                fun p => p.2.isSome).map Prod.snd)).map Prod.snd) := by
  intro h
  simp [render_cookbooks, gallery_loop, aggStep, tagsGet, exDomX, initState,
    groupNode, controlRows, dict_set, dlookup, render_cookbook, flatTags, seqItems,
    tagSpans, List.lookup, List.mapM.loop, Finset.sort_empty, Finset.sort_singleton,
    mkRow, List.filter] at h

/-- A concrete duplicate-free run with one failing fetch. -/
theorem cards_from_successful_subset_witness :
    (["a", "b"] : List String).Nodup ∧
    ([some exDomX, none] : List (Option CData)).length
      = (["a", "b"] : List String).length ∧
    ((render_cookbooks ["a", "b"] [some exDomX, none]).map Prod.snd
      = (render_cookbooks
          (((["a", "b"].zip ([some exDomX, none] : List (Option CData))).filter
              fun p => p.2.isSome).map Prod.fst)
          (((["a", "b"].zip ([some exDomX, none] : List (Option CData))).filter
              fun p => p.2.isSome).map Prod.snd)).map Prod.snd) :=
  ⟨by decide, rfl,
   cards_from_successful_subset ["a", "b"] [some exDomX, none] (by decide) rfl⟩
